import Mathlib

/-!
Verification development for the OwnTracks-SurrealDB-DataViewer repository.

The development shallowly embeds the parts of the TypeScript source that the
verified properties are about:

* `src/stores/credentials.ts` — the credential vault (`encryptData`,
  `decryptData`, `saveCredentials`, `loadCredentials`, `clearCredentials`).
* `src/services/crypto.ts` — the OwnTracks payload decryptor
  (`decryptOwnTracksData`).
* the SurrealDB service — the query-string builders and the haversine
  `calculateDistance`.
* the map component — the per-device distance filter
  (`filterPointsByDistance`) and its `calculateDistance` wrapper.
* `useOwnTracks.ts` — the live-arrival window update (`handleNewPoint`).
* the incremental batch decryption loop (`startIncrementalDecryption`).

Modelling conventions:

* JavaScript byte buffers (`Uint8Array`) are `List Byte` with `Byte := Fin 256`.
* JavaScript strings that are only ever fed to `sodium.from_string` /
  recovered with `sodium.to_string` (plaintexts, passwords) are modelled
  directly by their UTF-8 byte sequences, so `from_string`/`to_string`
  become the identity; distinct strings have distinct byte sequences.
* libsodium's base64 codec (`ORIGINAL` variant: standard alphabet with
  padding) is implemented concretely below; `from_base64` throwing on
  malformed input is modelled by `Option`.
* The secretbox AEAD and `randombytes_buf` are external collaborators; they
  are abstracted as a `SodiumModel` whose assumed contract is `SodiumSpec`
  (authenticated encryption: opening with the sealing key succeeds, opening
  with a different 32-byte key fails, nonces have the requested length).
* JavaScript exceptions are modelled by `Option`/result values.
* JavaScript numbers inside decrypted JSON (latitudes/longitudes) are
  modelled as rationals; the transcendental haversine formula is modelled
  over the reals.
-/

/-! ## Bytes and the base64 codec (libsodium `to_base64`/`from_base64`, ORIGINAL variant) -/

abbrev Byte := Fin 256

/-- The standard (non-URL) base64 alphabet. -/
def base64Alphabet : List Char :=
  "ABCDEFGHIJKLMNOPQRSTUVWXYZabcdefghijklmnopqrstuvwxyz0123456789+/".data

/-- Character of a 6-bit value. -/
def b64c (n : Nat) : Char := base64Alphabet.getD n 'A'

/-- Index of a character in a character list (first occurrence). -/
def b64idx (c : Char) : List Char → Option Nat
  | [] => none
  | x :: xs => if x = c then some 0 else (b64idx c xs).map (· + 1)

/-- 6-bit value of a base64 character, if it is one. -/
def b64v (c : Char) : Option (Fin 64) :=
  match b64idx c base64Alphabet with
  | some i => if h : i < 64 then some ⟨i, h⟩ else none
  | none => none

def encChar0 (a : Byte) : Char := b64c (a.val / 4)

def encChar1 (a b : Byte) : Char := b64c (a.val % 4 * 16 + b.val / 16)

def encChar2 (b c : Byte) : Char := b64c (b.val % 16 * 4 + c.val / 64)

def encChar3 (c : Byte) : Char := b64c (c.val % 64)

/-- Base64-encode a byte sequence (with `=` padding). -/
def base64encodeList : List Byte → List Char
  | [] => []
  | [a] => [encChar0 a, b64c (a.val % 4 * 16), '=', '=']
  | [a, b] => [encChar0 a, encChar1 a b, b64c (b.val % 16 * 4), '=']
  | a :: b :: c :: rest =>
      encChar0 a :: encChar1 a b :: encChar2 b c :: encChar3 c :: base64encodeList rest

def base64encode (l : List Byte) : String := ⟨base64encodeList l⟩

def dByte0 (v0 v1 : Fin 64) : Byte :=
  ⟨v0.val * 4 + v1.val / 16, by have h0 := v0.isLt; have h1 := v1.isLt; omega⟩

def dByte1 (v1 v2 : Fin 64) : Byte :=
  ⟨v1.val % 16 * 16 + v2.val / 4, by have h1 := v1.isLt; have h2 := v2.isLt; omega⟩

def dByte2 (v2 v3 : Fin 64) : Byte :=
  ⟨v2.val % 4 * 64 + v3.val, by have h2 := v2.isLt; have h3 := v3.isLt; omega⟩

/-- Base64-decode; `none` models `sodium.from_base64` throwing on malformed
input (bad characters, bad length, bad padding). -/
def base64decodeList : List Char → Option (List Byte)
  | [] => some []
  | c0 :: c1 :: c2 :: c3 :: rest =>
      match b64v c0, b64v c1 with
      | some v0, some v1 =>
          if c2 = '=' then
            if c3 = '=' ∧ rest = [] ∧ v1.val % 16 = 0 then some [dByte0 v0 v1] else none
          else
            match b64v c2 with
            | some v2 =>
                if c3 = '=' then
                  if rest = [] ∧ v2.val % 4 = 0 then some [dByte0 v0 v1, dByte1 v1 v2]
                  else none
                else
                  match b64v c3 with
                  | some v3 =>
                      (base64decodeList rest).map
                        (fun tl => dByte0 v0 v1 :: dByte1 v1 v2 :: dByte2 v2 v3 :: tl)
                  | none => none
            | none => none
      | _, _ => none
  | _ => none

def base64decode (s : String) : Option (List Byte) := base64decodeList s.data

/-! ## Query strings built by the SurrealDB service

The service builds SurrealQL strings by template interpolation of the table
name and the configured field names; everything user-supplied is passed as a
bound parameter.  The definitions reproduce the exact strings. -/

def queryEncryptedOwnTracksData_query (tableName encryptedField timestampField : String) :
    String :=
  "SELECT * FROM " ++ tableName ++ " WHERE `" ++ encryptedField ++
    "` IS NOT NULL AND `" ++ timestampField ++
    "` >= <datetime>$fifteenMinutesAgo ORDER BY `" ++ timestampField ++ "` DESC"

def queryEncryptedOwnTracksDataByDevice_query
    (tableName encryptedField deviceField timestampField : String) : String :=
  "SELECT * FROM " ++ tableName ++ " WHERE `" ++ deviceField ++
    "` = $deviceId AND `" ++ encryptedField ++ "` IS NOT NULL ORDER BY `" ++
    timestampField ++ "` DESC LIMIT 1000"

def queryEncryptedOwnTracksDataByDateRange_query
    (tableName encryptedField timestampField : String) : String :=
  "SELECT * FROM " ++ tableName ++ " WHERE `" ++ timestampField ++
    "` >= <datetime>$startDate AND `" ++ timestampField ++
    "` <= <datetime>$endDate AND `" ++ encryptedField ++
    "` IS NOT NULL ORDER BY `" ++ timestampField ++ "` DESC"

def queryEncryptedOwnTracksDataWithFilters_query
    (tableName encryptedField deviceField timestampField : String)
    (hasDeviceId hasDateRange : Bool) : String :=
  let whereConditions :=
    ["`" ++ encryptedField ++ "` IS NOT NULL"]
      ++ (if hasDeviceId then ["`" ++ deviceField ++ "` = $deviceId"] else [])
      ++ (if hasDateRange then
            ["`" ++ timestampField ++ "` >= <datetime>$startDate AND `" ++
              timestampField ++ "` <= <datetime>$endDate"]
          else [])
  "SELECT * FROM " ++ tableName ++ " WHERE " ++
    String.intercalate " AND " whereConditions ++ " ORDER BY `" ++
    timestampField ++ "` DESC LIMIT 1000"

def getLastPointsForDevice_query
    (tableName encryptedField deviceField timestampField : String) : String :=
  "SELECT * FROM " ++ tableName ++ " \n                    WHERE `" ++
    deviceField ++ "` = $deviceId \n                    AND `" ++
    encryptedField ++ "` IS NOT NULL \n                    ORDER BY `" ++
    timestampField ++ "` DESC \n                    LIMIT $limit"

/-- Does `pat` occur at the head of `l`? -/
def leadsWith : List Char → List Char → Bool
  | [], _ => true
  | _ :: _, [] => false
  | p :: ps, c :: cs => p == c && leadsWith ps cs

/-- Does `pat` occur anywhere in `l`? -/
def listHasSub (pat : List Char) : List Char → Bool
  | [] => leadsWith pat []
  | c :: rest => leadsWith pat (c :: rest) || listHasSub pat rest

/-- Substring occurrence test on strings. -/
def strHasSub (s pat : String) : Bool := listHasSub pat.data s.data

/-! ## Live-arrival window update (`handleNewPoint` in `useOwnTracks.ts`)

`state.devicePoints` is a record keyed by device id and is modelled as a
function from device ids to windows; a missing key is the empty window
(the source initialises `state.devicePoints[deviceId] = []` when absent).
The new point is `unshift`ed (prepended) and the window is truncated with
`slice(0, 5)` when it exceeds 5 entries. -/

def handleNewPoint {α : Type} (devicePoints : String → List α) (deviceId : String)
    (newPoint : α) : String → List α :=
  fun d =>
    if d = deviceId then
      let w := newPoint :: devicePoints deviceId
      if w.length > 5 then w.take 5 else w
    else devicePoints d

/-! ## Incremental batch decryption (`startIncrementalDecryption`)

The source clears the decryption-outcome map, then processes `state.data` in
batches of 5: one batch is processed per invocation of `processNextBatch`,
which then schedules the next invocation with `setTimeout`.  Each invocation
is modelled as one atomic event (the spec's suspension points are exactly the
batch boundaries).  The closure variable `currentIndex` captured by a
scheduled invocation is an entry of the `pending` queue; `setTimeout`
callbacks fire in FIFO order.  Records are reduced to an id plus a flag for
a non-null ciphertext field (`tryDecryptItem` returns without writing when
the content or id is absent); the decryption outcome of record `i` is the
abstract `decOf i`.  The model assumes the vault is unlocked (the source
returns early otherwise). -/

structure RawRecord where
  id : Nat
  hasContent : Bool
deriving DecidableEq

/-- `tryDecryptItem`: write the record's outcome into the outcome map
(keyed by record id), unless the record has no ciphertext content. -/
def tryDecryptItem (decOf : Nat → Bool) (results : Nat → Option Bool) (r : RawRecord) :
    Nat → Option Bool :=
  if r.hasContent then fun j => if j = r.id then some (decOf r.id) else results j
  else results

def batchSize : Nat := 5

structure PipelineState where
  data : List RawRecord
  results : Nat → Option Bool
  pending : List Nat
  isDecrypting : Bool

/-- One invocation of `processNextBatch` with captured `currentIndex = i`:
either the run is complete (clear the busy flag), or process one batch of
records `[i, min (i+batchSize) len))` and schedule the continuation. -/
def processNextBatch (decOf : Nat → Bool) (st : PipelineState) (i : Nat) : PipelineState :=
  if st.data.length ≤ i then { st with isDecrypting := false }
  else
    let endIndex := min (i + batchSize) st.data.length
    { st with
      results := ((st.data.drop i).take (endIndex - i)).foldl (tryDecryptItem decOf) st.results
      pending := st.pending ++ [endIndex] }

/-- `startIncrementalDecryption`: guard on empty data, set the busy flag,
clear all previous outcomes, and run the first batch synchronously. -/
def startIncrementalDecryption (decOf : Nat → Bool) (st : PipelineState) : PipelineState :=
  if st.data.length = 0 then st
  else processNextBatch decOf { st with isDecrypting := true, results := fun _ => none } 0

inductive PipelineEvent where
  | refresh (newData : List RawRecord)
  | timerFire

/-- `refresh d`: `state.data` is replaced and the watcher triggers
`startIncrementalDecryption`.  `timerFire`: the oldest pending `setTimeout`
callback runs. -/
def pipelineStep (decOf : Nat → Bool) (st : PipelineState) : PipelineEvent → PipelineState
  | .refresh newData => startIncrementalDecryption decOf { st with data := newData }
  | .timerFire =>
      match st.pending with
      | [] => st
      | i :: rest => processNextBatch decOf { st with pending := rest } i

def pipelineRun (decOf : Nat → Bool) (st : PipelineState) (evs : List PipelineEvent) :
    PipelineState :=
  evs.foldl (pipelineStep decOf) st

/-! The behaviour the specification demands instead: a bulk refresh abandons
the previous run's remaining batches, which then write no further outcomes.
Modelled by tagging every scheduled continuation with the generation of the
refresh that created it; a continuation of a superseded generation is
discarded without writing. -/

structure SpecPipelineState where
  data : List RawRecord
  results : Nat → Option Bool
  pending : List (Nat × Nat)
  generation : Nat
  isDecrypting : Bool

def specProcessNextBatch (decOf : Nat → Bool) (st : SpecPipelineState) (g i : Nat) :
    SpecPipelineState :=
  if st.data.length ≤ i then { st with isDecrypting := false }
  else
    let endIndex := min (i + batchSize) st.data.length
    { st with
      results := ((st.data.drop i).take (endIndex - i)).foldl (tryDecryptItem decOf) st.results
      pending := st.pending ++ [(g, endIndex)] }

def specStartIncrementalDecryption (decOf : Nat → Bool) (st : SpecPipelineState) :
    SpecPipelineState :=
  if st.data.length = 0 then st
  else
    specProcessNextBatch decOf
      { st with
        generation := st.generation + 1
        isDecrypting := true
        results := fun _ => none }
      (st.generation + 1) 0

def specPipelineStep (decOf : Nat → Bool) (st : SpecPipelineState) :
    PipelineEvent → SpecPipelineState
  | .refresh newData => specStartIncrementalDecryption decOf { st with data := newData }
  | .timerFire =>
      match st.pending with
      | [] => st
      | (g, i) :: rest =>
          if g = st.generation then specProcessNextBatch decOf { st with pending := rest } g i
          else { st with pending := rest }

def specPipelineRun (decOf : Nat → Bool) (st : SpecPipelineState) (evs : List PipelineEvent) :
    SpecPipelineState :=
  evs.foldl (specPipelineStep decOf) st

/-! ## Haversine distance and the per-device distance filter

`calculateDistance` in the SurrealDB service computes the haversine
great-circle distance (Earth radius 6 371 000 m) between two lat/lon pairs
using `Math.atan2`.  The map component wraps it: if either point is missing,
or any of the four coordinates is falsy (absent or `0` — JavaScript
truthiness), the wrapper returns `Infinity`; an infinite distance is
modelled by `none`. -/

open Classical in
/-- JavaScript `Math.atan2 y x`. -/
noncomputable def atan2 (y x : ℝ) : ℝ :=
  if 0 < x then Real.arctan (y / x)
  else if x < 0 then
    if 0 ≤ y then Real.arctan (y / x) + Real.pi else Real.arctan (y / x) - Real.pi
  else if 0 < y then Real.pi / 2
  else if y < 0 then -(Real.pi / 2)
  else 0

/-- The intermediate haversine quantity
`a = sin²(Δφ/2) + cos φ1 · cos φ2 · sin²(Δλ/2)` (angles in radians,
inputs in degrees). -/
noncomputable def havA (lat1 lon1 lat2 lon2 : ℚ) : ℝ :=
  Real.sin (((lat2 : ℝ) - (lat1 : ℝ)) * Real.pi / 180 / 2) *
      Real.sin (((lat2 : ℝ) - (lat1 : ℝ)) * Real.pi / 180 / 2) +
    Real.cos ((lat1 : ℝ) * Real.pi / 180) * Real.cos ((lat2 : ℝ) * Real.pi / 180) *
      (Real.sin (((lon2 : ℝ) - (lon1 : ℝ)) * Real.pi / 180 / 2) *
        Real.sin (((lon2 : ℝ) - (lon1 : ℝ)) * Real.pi / 180 / 2))

/-- `calculateDistance` of the SurrealDB service: haversine distance in
meters, `R = 6371e3`, `c = 2 · atan2(√a, √(1-a))`, result `R · c`. -/
noncomputable def haversineDistance (lat1 lon1 lat2 lon2 : ℚ) : ℝ :=
  6371000 *
    (2 * atan2 (Real.sqrt (havA lat1 lon1 lat2 lon2))
      (Real.sqrt (1 - havA lat1 lon1 lat2 lon2)))

/-- Latitude/longitude carried by a decrypted OwnTracks payload; either field
may be absent from the JSON object. -/
structure GeoPoint where
  lat : Option ℚ
  lon : Option ℚ
deriving DecidableEq

def MAX_DISTANCE : ℝ := 150

/-- The map component's `calculateDistance` wrapper: `Infinity` (= `none`)
when either point is `null` or any coordinate is falsy (absent or zero),
otherwise the haversine distance. -/
noncomputable def calculateDistance : Option GeoPoint → Option GeoPoint → Option ℝ
  | some point1, some point2 =>
      match point1.lat, point1.lon, point2.lat, point2.lon with
      | some la1, some lo1, some la2, some lo2 =>
          if la1 = 0 ∨ lo1 = 0 ∨ la2 = 0 ∨ lo2 = 0 then none
          else some (haversineDistance la1 lo1 la2 lo2)
      | _, _, _, _ => none
  | _, _ => none

/-- `distance <= MAX_DISTANCE` in JavaScript: false when the distance is
`Infinity`. -/
def distLE : Option ℝ → ℝ → Prop
  | none, _ => False
  | some d, t => d ≤ t

open Classical in
/-- One iteration of the `filterPointsByDistance` loop: the decrypted data of
the current point and of the last kept point (`filteredPoints[len-1]`) are
compared; the point is pushed when the distance is within `MAX_DISTANCE`.
`getDec` is `getDecryptedPointData`: the decryption outcome of a record,
parsed (`none` when the record has no id, no successful outcome, or the
outcome fails to parse). -/
noncomputable def filterStep {α : Type} (getDec : α → Option GeoPoint)
    (acc : List α) (cur : α) : List α :=
  if distLE
      (calculateDistance
        (match acc.getLast? with
          | some lastKept => getDec lastKept
          | none => none)
        (getDec cur))
      MAX_DISTANCE
  then acc ++ [cur] else acc

/-- `filterPointsByDistance` for one device's window (window order =
newest-first): keep the newest point unconditionally, then run the loop over
the remaining points.  (The source maps this over every device entry of
`devicePoints`, skipping empty windows.) -/
noncomputable def filterPointsByDistance {α : Type} (getDec : α → Option GeoPoint) :
    List α → List α
  | [] => []
  | p :: rest => rest.foldl (filterStep getDec) [p]

/-! The filter as the specification words it: keep the first (newest) point;
for each subsequent point, compute the distance between it and the *last
kept* point and keep it exactly when that distance is within the threshold.
It is parametrised by the distance function so that the spec's reading
(`claimDistance`: only *missing* coordinates are infinitely far) and the
code's reading (`calculateDistance`: zero coordinates are also infinitely
far) can be compared. -/

/-- The distance the specification describes: haversine whenever both points
have decrypted coordinates, infinite only when coordinates are lacking. -/
noncomputable def claimDistance : Option GeoPoint → Option GeoPoint → Option ℝ
  | some point1, some point2 =>
      match point1.lat, point1.lon, point2.lat, point2.lon with
      | some la1, some lo1, some la2, some lo2 => some (haversineDistance la1 lo1 la2 lo2)
      | _, _, _, _ => none
  | _, _ => none

open Classical in
noncomputable def claimKeepGo {α : Type} (dist : Option GeoPoint → Option GeoPoint → Option ℝ)
    (getDec : α → Option GeoPoint) : α → List α → List α
  | _, [] => []
  | lastKept, cur :: rest =>
      if distLE (dist (getDec lastKept) (getDec cur)) MAX_DISTANCE then
        cur :: claimKeepGo dist getDec cur rest
      else claimKeepGo dist getDec lastKept rest

/-- The filter as described by the specification sentence, parametrised by
the distance function. -/
noncomputable def claimFilter {α : Type} (dist : Option GeoPoint → Option GeoPoint → Option ℝ)
    (getDec : α → Option GeoPoint) : List α → List α
  | [] => []
  | p :: rest => p :: claimKeepGo dist getDec p rest

/-! ## The secretbox boundary and the credential vault (`credentials.ts`) -/

def crypto_secretbox_KEYBYTES : Nat := 32

def crypto_secretbox_NONCEBYTES : Nat := 24

/-- The external libsodium primitives the vault and the payload decryptor
consume: `crypto_secretbox_easy message nonce key`,
`crypto_secretbox_open_easy ciphertext nonce key` (throwing is `none`), and
`randombytes_buf n`. -/
structure SodiumModel where
  crypto_secretbox_easy : List Byte → List Byte → List Byte → List Byte
  crypto_secretbox_open_easy : List Byte → List Byte → List Byte → Option (List Byte)
  randombytes_buf : Nat → List Byte

/-- The assumed contract of the secretbox AEAD: opening a sealed box with the
sealing key recovers the message; opening with a different (32-byte) key
fails the tag check; requested nonces have the requested length. -/
structure SodiumSpec (sod : SodiumModel) : Prop where
  seal_open : ∀ m n k, k.length = crypto_secretbox_KEYBYTES →
    sod.crypto_secretbox_open_easy (sod.crypto_secretbox_easy m n k) n k = some m
  open_wrong_key : ∀ m n k k', k.length = crypto_secretbox_KEYBYTES →
    k'.length = crypto_secretbox_KEYBYTES → k ≠ k' →
    sod.crypto_secretbox_open_easy (sod.crypto_secretbox_easy m n k) n k' = none
  randombytes_length : ∀ n, (sod.randombytes_buf n).length = n

/-- Password-to-key derivation used identically in `credentials.ts` and
`crypto.ts`: a 32-byte zero buffer overwritten left-aligned with the first
`min (length) 32` bytes of the UTF-8 password. -/
def deriveKey (passwordBytes : List Byte) : List Byte :=
  let copyLength := min passwordBytes.length crypto_secretbox_KEYBYTES
  passwordBytes.take copyLength ++
    List.replicate (crypto_secretbox_KEYBYTES - copyLength) (0 : Byte)

/-- `encryptData` of `credentials.ts`: derive key, random nonce, seal,
emit `base64(nonce ‖ ciphertext)`. -/
def encryptData (sod : SodiumModel) (data password : List Byte) : String :=
  let keyBuffer := deriveKey password
  let nonce := sod.randombytes_buf crypto_secretbox_NONCEBYTES
  let ciphertext := sod.crypto_secretbox_easy data nonce keyBuffer
  base64encode (nonce ++ ciphertext)

/-- `decryptData` of `credentials.ts`: derive key, base64-decode, split off
the 24-byte nonce, open.  Any throw (bad base64, failed tag check) is
`none`. -/
def decryptData (sod : SodiumModel) (encryptedData : String) (password : List Byte) :
    Option (List Byte) :=
  let keyBuffer := deriveKey password
  match base64decode encryptedData with
  | none => none
  | some combined =>
      sod.crypto_secretbox_open_easy (combined.drop crypto_secretbox_NONCEBYTES)
        (combined.take crypto_secretbox_NONCEBYTES) keyBuffer

/-- The Credential Set held by the vault (all fields plain strings). -/
structure Credentials where
  username : String
  password : String
  decryptionPassword : String
  surrealUrl : String
  surrealNamespace : String
  surrealDatabase : String
  surrealTable : String
deriving DecidableEq

/-- The store's initial in-memory credential value: every field blank. -/
def blankCredentials : Credentials := ⟨"", "", "", "", "", "", ""⟩

/-- The Pinia store's state: the persisted blob (`localStorage`-backed,
`""` = nothing stored), the in-memory credential set, the `isLoaded` flag
and the last error message. -/
structure CredentialsState where
  encryptedData : String
  credentials : Credentials
  isLoaded : Bool
  error : Option String
deriving DecidableEq

def initialCredentialsState : CredentialsState :=
  { encryptedData := "", credentials := blankCredentials, isLoaded := false, error := none }

/-- `saveCredentials`: the in-memory credential set is replaced *before* the
credentials are serialized (`stringify`, modelling `JSON.stringify`) and
encrypted (`enc`, modelling the awaited `encryptData`, whose throwing is
`none`); on success the blob is replaced and `isLoaded` set, on failure the
`catch` block only records the error and returns `false`. -/
def saveCredentials (stringify : Credentials → List Byte)
    (enc : List Byte → List Byte → Option String)
    (st : CredentialsState) (credentials : Credentials) (masterPassword : List Byte) :
    CredentialsState × Bool :=
  let st1 := { st with credentials := credentials }
  match enc (stringify credentials) masterPassword with
  | some blob => ({ st1 with encryptedData := blob, isLoaded := true, error := none }, true)
  | none => ({ st1 with error := some "Failed to save credentials" }, false)

/-- `loadCredentials`: fail early when no blob is stored; otherwise decrypt
(`dec`) and `JSON.parse` (`parse`); on success install the credentials and
set `isLoaded`; any failure lands in the `catch` block, which records the
undifferentiated error and clears `isLoaded` but leaves the in-memory
credential set as it was. -/
def loadCredentials (parse : List Byte → Option Credentials)
    (dec : String → List Byte → Option (List Byte))
    (st : CredentialsState) (masterPassword : List Byte) :
    CredentialsState × Bool :=
  if st.encryptedData = "" then
    ({ st with error := some "No stored credentials found" }, false)
  else
    match (dec st.encryptedData masterPassword).bind parse with
    | some decryptedData =>
        ({ st with credentials := decryptedData, isLoaded := true, error := none }, true)
    | none =>
        ({ st with
            error := some "Failed to decrypt credentials. Incorrect password?"
            isLoaded := false }, false)

/-- `clearCredentials`: blank the in-memory set, delete the blob, reset the
flags. -/
def clearCredentials (st : CredentialsState) : CredentialsState :=
  { st with
    credentials := blankCredentials
    encryptedData := ""
    isLoaded := false
    error := none }

/-- `hasStoredCredentials`: `!!this.encryptedData`. -/
def hasStoredCredentials (st : CredentialsState) : Bool := st.encryptedData ≠ ""

/-- The non-throwing execution of `encryptData` as the `enc` argument of
`saveCredentials`. -/
def sodEnc (sod : SodiumModel) : List Byte → List Byte → Option String :=
  fun dataStr masterPassword => some (encryptData sod dataStr masterPassword)

/-- `decryptData` as the `dec` argument of `loadCredentials`. -/
def sodDec (sod : SodiumModel) : String → List Byte → Option (List Byte) :=
  fun blob masterPassword => decryptData sod blob masterPassword

/-! ## The OwnTracks payload decryptor (`crypto.ts`) -/

inductive CryptoErrorKind where
  | decodeFailed
  | tooShort
  | openFailed
  | jsonParseFailed
deriving DecidableEq

/-- The `DecryptionResult` of `crypto.ts`: `{success: true, data}` or
`{success: false, error}` with the error collapsed to its kind. -/
inductive DecryptionResult (J : Type) where
  | ok (data : J)
  | failed (err : CryptoErrorKind)
deriving DecidableEq

/-- The shape `JSON.parse` can give the input token: an object possibly
carrying `_type` and `data` string fields. -/
structure EncryptedEnvelope where
  etype : Option String
  data : Option String

/-- Lines 25–51 of `crypto.ts`: try to `JSON.parse` the input string
(`envParse`; `none` = the parse threw, giving `{data: input}` and hence the
raw input); when a parsed object carries a truthy `data` field it is the
token (whether or not `_type = "encrypted"`), otherwise the raw input string
is the token. -/
def extractBase64Data (envParse : String → Option EncryptedEnvelope)
    (encryptedData : String) : String :=
  match envParse encryptedData with
  | some payload =>
      match payload.data with
      | some d => if d = "" then encryptedData else d
      | none => encryptedData
  | none => encryptedData

/-- `decryptOwnTracksData`: extract the token, derive the key, base64-decode
(throw = caught = `decodeFailed`), reject payloads shorter than the nonce
width, split nonce/ciphertext, open (throw = caught = `openFailed`), then
`JSON.parse` the plaintext (`jsonParse`, abstract; throw = caught =
`jsonParseFailed`).  The function is total: every path returns a result
value. -/
def decryptOwnTracksData {J : Type} (sod : SodiumModel)
    (envParse : String → Option EncryptedEnvelope) (jsonParse : List Byte → Option J)
    (encryptedData : String) (secretKey : List Byte) : DecryptionResult J :=
  let keyBuffer := deriveKey secretKey
  match base64decode (extractBase64Data envParse encryptedData) with
  | none => .failed .decodeFailed
  | some encryptedBytes =>
      if encryptedBytes.length < crypto_secretbox_NONCEBYTES then .failed .tooShort
      else
        match sod.crypto_secretbox_open_easy
            (encryptedBytes.drop crypto_secretbox_NONCEBYTES)
            (encryptedBytes.take crypto_secretbox_NONCEBYTES) keyBuffer with
        | none => .failed .openFailed
        | some plaintext =>
            match jsonParse plaintext with
            | none => .failed .jsonParseFailed
            | some jsonData => .ok jsonData

/-! ## Concrete witnesses for the external boundaries

`toySodium` is a concrete secretbox satisfying `SodiumSpec`:  sealing
prepends the key, opening checks the 32-byte prefix.  `tinyStringify` /
`tinyParse` form a concrete serialization of `Credentials` with
`tinyParse (tinyStringify c) = some c`, standing in for
`JSON.stringify`/`JSON.parse`. -/

def toySodium : SodiumModel where
  crypto_secretbox_easy := fun m _ k => k ++ m
  crypto_secretbox_open_easy := fun c _ k =>
    if c.take crypto_secretbox_KEYBYTES = k then some (c.drop crypto_secretbox_KEYBYTES)
    else none
  randombytes_buf := fun n => List.replicate n (7 : Byte)

/-- Three-byte little-endian encoding of a character's code point. -/
def charTo3 (c : Char) : List Byte :=
  [⟨c.toNat % 256, by omega⟩, ⟨c.toNat / 256 % 256, by omega⟩,
    ⟨c.toNat / 65536 % 256, by omega⟩]

def strToBytes (s : String) : List Byte := (s.data.map charTo3).flatten

def bytes3ToChars : List Byte → Option (List Char)
  | [] => some []
  | b0 :: b1 :: b2 :: rest =>
      (bytes3ToChars rest).map
        (fun tl => Char.ofNat (b0.val + 256 * b1.val + 65536 * b2.val) :: tl)
  | _ => none

/-- Unary length prefix (`1`^n, `0` marker), then the payload bytes. -/
def encField (s : String) : List Byte :=
  List.replicate (strToBytes s).length (1 : Byte) ++ (0 : Byte) :: strToBytes s

def countOnes : List Byte → Nat × List Byte
  | [] => (0, [])
  | b :: rest =>
      if b = (1 : Byte) then
        let p := countOnes rest
        (p.1 + 1, p.2)
      else (0, b :: rest)

def decField (l : List Byte) : Option (String × List Byte) :=
  match countOnes l with
  | (n, b :: rest) =>
      if b = (0 : Byte) then
        match bytes3ToChars (rest.take n) with
        | some cs => some (⟨cs⟩, rest.drop n)
        | none => none
      else none
  | (_, []) => none

def tinyStringify (c : Credentials) : List Byte :=
  encField c.username ++ encField c.password ++ encField c.decryptionPassword ++
    encField c.surrealUrl ++ encField c.surrealNamespace ++ encField c.surrealDatabase ++
    encField c.surrealTable

def tinyParse (l : List Byte) : Option Credentials := do
  let (f1, l) ← decField l
  let (f2, l) ← decField l
  let (f3, l) ← decField l
  let (f4, l) ← decField l
  let (f5, l) ← decField l
  let (f6, l) ← decField l
  let (f7, _) ← decField l
  pure ⟨f1, f2, f3, f4, f5, f6, f7⟩

/-! ## Auxiliary definitions used by the stated properties -/

/-- The relation holding between a kept point and the next point the filter
keeps after it: the (code's) distance between their decrypted data is within
the threshold. -/
def filterKeepRel {α : Type} (getDec : α → Option GeoPoint) (a b : α) : Prop :=
  distLE (calculateDistance (getDec a) (getDec b)) MAX_DISTANCE

/-- A record's decryption outcome is a point with both coordinates present
and nonzero. -/
def decNZ (g : Option GeoPoint) : Prop :=
  ∃ p la lo, g = some p ∧ p.lat = some la ∧ p.lon = some lo ∧ la ≠ 0 ∧ lo ≠ 0

/-- Decryption outcomes for the counterexample window `[0, 1]`: both records
decrypt to latitude 0, longitude 5 (a point on the equator). -/
def decEquator : Nat → Option GeoPoint := fun _ => some ⟨some 0, some 5⟩

/-- Decryption outcomes for the specification's concrete example, newest
first: record 2 ↦ (0, 5), record 1 ↦ (0, 0.001), record 0 ↦ (0, 0). -/
def decC1Example : Nat → Option GeoPoint := fun n =>
  if n = 2 then some ⟨some 0, some 5⟩
  else if n = 1 then some ⟨some 0, some (1 / 1000)⟩
  else some ⟨some 0, some 0⟩

/-- Decryption outcomes for the counterexample window `[0, 1]`: both records
decrypt to the same point (1, 1). -/
def decSame : Nat → Option GeoPoint := fun _ => some ⟨some 1, some 1⟩

/-- Six records with ciphertext content, ids 1–6. -/
def sixRecords : List RawRecord :=
  [⟨1, true⟩, ⟨2, true⟩, ⟨3, true⟩, ⟨4, true⟩, ⟨5, true⟩, ⟨6, true⟩]

/-- The interleaving that exhibits the missing cancellation: a bulk refresh,
a second bulk refresh triggered while the first run's continuation is still
pending, then the first run's `setTimeout` callback fires. -/
def staleWriteTrace : List PipelineEvent :=
  [.refresh sixRecords, .refresh sixRecords, .timerFire]

def pipelineInit : PipelineState :=
  { data := [], results := fun _ => none, pending := [], isDecrypting := false }

def specPipelineInit : SpecPipelineState :=
  { data := [], results := fun _ => none, pending := [], generation := 0,
    isDecrypting := false }

/-- A concrete fully-populated credential set. -/
def credExample : Credentials := ⟨"u", "p", "d", "url", "ns", "db", "tbl"⟩

/-! ## Helper lemmas: base64 codec -/

theorem b64v_b64c : ∀ i : Fin 64, b64v (b64c i.val) = some i := by decide

theorem b64c_ne_pad : ∀ i : Fin 64, b64c i.val ≠ '=' := by decide

theorem b64v_b64c' (n : Nat) (h : n < 64) : b64v (b64c n) = some ⟨n, h⟩ := b64v_b64c ⟨n, h⟩

theorem b64c_ne_pad' (n : Nat) (h : n < 64) : b64c n ≠ '=' := b64c_ne_pad ⟨n, h⟩

theorem base64_roundtripList : ∀ l : List Byte, base64decodeList (base64encodeList l) = some l
  | [] => rfl
  | [a] => by
      have ha := a.isLt
      show base64decodeList [encChar0 a, b64c (a.val % 4 * 16), '=', '='] = some [a]
      rw [show encChar0 a = b64c (a.val / 4) from rfl]
      simp only [base64decodeList, b64v_b64c' (a.val / 4) (by omega),
        b64v_b64c' (a.val % 4 * 16) (by omega)]
      rw [if_pos trivial, if_pos ⟨trivial, trivial, by omega⟩]
      refine congrArg some ?_
      refine congrArg (fun x => [x]) (Fin.ext ?_)
      show a.val / 4 * 4 + a.val % 4 * 16 / 16 = a.val
      omega
  | [a, b] => by
      have ha := a.isLt
      have hb := b.isLt
      show base64decodeList [encChar0 a, encChar1 a b, b64c (b.val % 16 * 4), '='] = some [a, b]
      rw [show encChar0 a = b64c (a.val / 4) from rfl,
        show encChar1 a b = b64c (a.val % 4 * 16 + b.val / 16) from rfl]
      simp only [base64decodeList, b64v_b64c' (a.val / 4) (by omega),
        b64v_b64c' (a.val % 4 * 16 + b.val / 16) (by omega),
        b64v_b64c' (b.val % 16 * 4) (by omega)]
      rw [if_neg (b64c_ne_pad' (b.val % 16 * 4) (by omega)), if_pos trivial,
        if_pos ⟨trivial, by omega⟩]
      refine congrArg some ?_
      refine congrArg₂ (fun x y => [x, y]) (Fin.ext ?_) (Fin.ext ?_)
      · show a.val / 4 * 4 + (a.val % 4 * 16 + b.val / 16) / 16 = a.val
        omega
      · show (a.val % 4 * 16 + b.val / 16) % 16 * 16 + b.val % 16 * 4 / 4 = b.val
        omega
  | a :: b :: c :: rest => by
      have ha := a.isLt
      have hb := b.isLt
      have hc := c.isLt
      have ih := base64_roundtripList rest
      show base64decodeList
          (encChar0 a :: encChar1 a b :: encChar2 b c :: encChar3 c :: base64encodeList rest) =
        some (a :: b :: c :: rest)
      rw [show encChar0 a = b64c (a.val / 4) from rfl,
        show encChar1 a b = b64c (a.val % 4 * 16 + b.val / 16) from rfl,
        show encChar2 b c = b64c (b.val % 16 * 4 + c.val / 64) from rfl,
        show encChar3 c = b64c (c.val % 64) from rfl]
      simp only [base64decodeList, b64v_b64c' (a.val / 4) (by omega),
        b64v_b64c' (a.val % 4 * 16 + b.val / 16) (by omega),
        b64v_b64c' (b.val % 16 * 4 + c.val / 64) (by omega),
        b64v_b64c' (c.val % 64) (by omega)]
      rw [if_neg (b64c_ne_pad' (b.val % 16 * 4 + c.val / 64) (by omega)),
        if_neg (b64c_ne_pad' (c.val % 64) (by omega)), ih]
      refine congrArg some ?_
      refine congrArg₂ (fun x tl => x :: tl) (Fin.ext ?_) ?_
      · show a.val / 4 * 4 + (a.val % 4 * 16 + b.val / 16) / 16 = a.val
        omega
      refine congrArg₂ (fun x tl => x :: tl) (Fin.ext ?_) ?_
      · show (a.val % 4 * 16 + b.val / 16) % 16 * 16 + (b.val % 16 * 4 + c.val / 64) / 4 = b.val
        omega
      refine congrArg₂ (fun x tl => x :: tl) (Fin.ext ?_) rfl
      show (b.val % 16 * 4 + c.val / 64) % 4 * 64 + c.val % 64 = c.val
      omega

theorem base64decode_encode (l : List Byte) : base64decode (base64encode l) = some l :=
  base64_roundtripList l

theorem base64encode_ne_empty {l : List Byte} (h : l ≠ []) : base64encode l ≠ "" := by
  intro he
  have hd : (base64encode l).data = ("" : String).data := by rw [he]
  match l with
  | [] => exact h rfl
  | [a] => simp [base64encode, base64encodeList] at hd
  | [a, b] => simp [base64encode, base64encodeList] at hd
  | a :: b :: c :: rest => simp [base64encode, base64encodeList] at hd

/-! ## Helper lemmas: key derivation, cipher round trip, concrete instances -/

theorem deriveKey_length (p : List Byte) : (deriveKey p).length = crypto_secretbox_KEYBYTES := by
  simp [deriveKey, crypto_secretbox_KEYBYTES]

theorem encryptData_ne_empty (sod : SodiumModel) (hs : SodiumSpec sod)
    (data password : List Byte) : encryptData sod data password ≠ "" := by
  unfold encryptData
  apply base64encode_ne_empty
  intro h
  have hl : (sod.randombytes_buf crypto_secretbox_NONCEBYTES ++
      sod.crypto_secretbox_easy data (sod.randombytes_buf crypto_secretbox_NONCEBYTES)
        (deriveKey password)).length = 0 := by rw [h]; rfl
  rw [List.length_append, hs.randombytes_length] at hl
  simp [crypto_secretbox_NONCEBYTES] at hl

theorem decryptData_encryptData (sod : SodiumModel) (hs : SodiumSpec sod)
    (data password : List Byte) :
    decryptData sod (encryptData sod data password) password = some data := by
  unfold decryptData encryptData
  rw [base64decode_encode]
  show sod.crypto_secretbox_open_easy
      (List.drop crypto_secretbox_NONCEBYTES
        (sod.randombytes_buf crypto_secretbox_NONCEBYTES ++
          sod.crypto_secretbox_easy data (sod.randombytes_buf crypto_secretbox_NONCEBYTES)
            (deriveKey password)))
      (List.take crypto_secretbox_NONCEBYTES
        (sod.randombytes_buf crypto_secretbox_NONCEBYTES ++
          sod.crypto_secretbox_easy data (sod.randombytes_buf crypto_secretbox_NONCEBYTES)
            (deriveKey password)))
      (deriveKey password) = some data
  rw [List.take_left' (hs.randombytes_length crypto_secretbox_NONCEBYTES),
    List.drop_left' (hs.randombytes_length crypto_secretbox_NONCEBYTES)]
  exact hs.seal_open data _ _ (deriveKey_length password)

theorem decryptData_encryptData_wrong_key (sod : SodiumModel) (hs : SodiumSpec sod)
    (data password1 password2 : List Byte) (hk : deriveKey password1 ≠ deriveKey password2) :
    decryptData sod (encryptData sod data password1) password2 = none := by
  unfold decryptData encryptData
  rw [base64decode_encode]
  show sod.crypto_secretbox_open_easy
      (List.drop crypto_secretbox_NONCEBYTES
        (sod.randombytes_buf crypto_secretbox_NONCEBYTES ++
          sod.crypto_secretbox_easy data (sod.randombytes_buf crypto_secretbox_NONCEBYTES)
            (deriveKey password1)))
      (List.take crypto_secretbox_NONCEBYTES
        (sod.randombytes_buf crypto_secretbox_NONCEBYTES ++
          sod.crypto_secretbox_easy data (sod.randombytes_buf crypto_secretbox_NONCEBYTES)
            (deriveKey password1)))
      (deriveKey password2) = none
  rw [List.take_left' (hs.randombytes_length crypto_secretbox_NONCEBYTES),
    List.drop_left' (hs.randombytes_length crypto_secretbox_NONCEBYTES)]
  exact hs.open_wrong_key data _ _ _ (deriveKey_length password1) (deriveKey_length password2) hk

theorem toySodium_spec : SodiumSpec toySodium := by
  constructor
  · intro m n k hk
    show (if (k ++ m).take crypto_secretbox_KEYBYTES = k
        then some ((k ++ m).drop crypto_secretbox_KEYBYTES) else none) = some m
    rw [List.take_left' hk, List.drop_left' hk, if_pos rfl]
  · intro m n k k' hk hk' hne
    show (if (k ++ m).take crypto_secretbox_KEYBYTES = k'
        then some ((k ++ m).drop crypto_secretbox_KEYBYTES) else none) = none
    rw [List.take_left' hk, if_neg hne]
  · intro n
    exact List.length_replicate n (7 : Byte)

theorem char_toNat_lt (c : Char) : c.toNat < 1114112 := by
  have h := c.valid
  rcases h with h | ⟨_, h2⟩
  · show c.val.toNat < 1114112
    omega
  · show c.val.toNat < 1114112
    omega

theorem bytes3ToChars_charTo3 (c : Char) (bs : List Byte) :
    bytes3ToChars (charTo3 c ++ bs) = (bytes3ToChars bs).map (fun tl => c :: tl) := by
  have hlt := char_toNat_lt c
  show bytes3ToChars
      (⟨c.toNat % 256, _⟩ :: ⟨c.toNat / 256 % 256, _⟩ :: ⟨c.toNat / 65536 % 256, _⟩ :: bs) = _
  rw [bytes3ToChars]
  have harg : c.toNat % 256 + 256 * (c.toNat / 256 % 256) + 65536 * (c.toNat / 65536 % 256) =
      c.toNat := by omega
  simp only [harg, Char.ofNat_toNat]

theorem bytes3ToChars_strToBytes (s : List Char) (bs : List Byte) (tl : List Char)
    (h : bytes3ToChars bs = some tl) :
    bytes3ToChars ((s.map charTo3).flatten ++ bs) = some (s ++ tl) := by
  induction s with
  | nil => simpa using h
  | cons c cs ih =>
      simp only [List.map_cons, List.flatten_cons, List.append_assoc]
      rw [bytes3ToChars_charTo3, ih]
      rfl

theorem countOnes_replicate (n : Nat) (tail : List Byte) :
    countOnes (List.replicate n (1 : Byte) ++ (0 : Byte) :: tail) = (n, (0 : Byte) :: tail) := by
  induction n with
  | zero =>
      show countOnes ((0 : Byte) :: tail) = (0, (0 : Byte) :: tail)
      rw [countOnes, if_neg (by decide)]
  | succ m ih =>
      show countOnes ((1 : Byte) :: (List.replicate m (1 : Byte) ++ (0 : Byte) :: tail)) = _
      rw [countOnes, if_pos rfl, ih]

theorem decField_encField (s : String) (rest : List Byte) :
    decField (encField s ++ rest) = some (s, rest) := by
  have hb : bytes3ToChars (strToBytes s) = some s.data := by
    have h := bytes3ToChars_strToBytes s.data [] [] rfl
    simpa [strToBytes] using h
  unfold decField encField
  rw [List.append_assoc, List.cons_append, countOnes_replicate]
  show (if (0 : Byte) = 0 then
      match bytes3ToChars ((strToBytes s ++ rest).take (strToBytes s).length) with
      | some cs => some ((⟨cs⟩ : String), (strToBytes s ++ rest).drop (strToBytes s).length)
      | none => none
    else none) = some (s, rest)
  rw [if_pos rfl, List.take_left, List.drop_left, hb]

theorem tinyParse_tinyStringify (c : Credentials) : tinyParse (tinyStringify c) = some c := by
  unfold tinyParse tinyStringify
  simp only [List.append_assoc]
  rw [decField_encField]
  simp only [Option.bind_eq_bind, Option.some_bind]
  rw [decField_encField]
  simp only [Option.some_bind]
  rw [decField_encField]
  simp only [Option.some_bind]
  rw [decField_encField]
  simp only [Option.some_bind]
  rw [decField_encField]
  simp only [Option.some_bind]
  rw [decField_encField]
  simp only [Option.some_bind]
  have h7 : decField (encField c.surrealTable) = some (c.surrealTable, []) := by
    have := decField_encField c.surrealTable []
    simpa using this
  rw [h7]
  rfl

/-! ## Helper lemmas: haversine and the distance filter -/

theorem atan2_zero_one : atan2 0 1 = 0 := by
  unfold atan2
  rw [if_pos (by norm_num : (0 : ℝ) < 1)]
  norm_num

theorem havA_self (la lo : ℚ) : havA la lo la lo = 0 := by
  unfold havA
  simp

theorem haversineDistance_self (la lo : ℚ) : haversineDistance la lo la lo = 0 := by
  unfold haversineDistance
  rw [havA_self]
  norm_num [atan2_zero_one]

theorem foldl_filterStep_eq {α : Type} (getDec : α → Option GeoPoint) :
    ∀ (rest acc : List α) (lastKept : α),
      acc.getLast? = some lastKept →
      rest.foldl (filterStep getDec) acc =
        acc ++ claimKeepGo calculateDistance getDec lastKept rest
  | [], acc, l, _ => by simp [claimKeepGo]
  | cur :: rest, acc, l, h => by
      by_cases hd : distLE (calculateDistance (getDec l) (getDec cur)) MAX_DISTANCE
      · have hstep : filterStep getDec acc cur = acc ++ [cur] := by
          unfold filterStep
          rw [h]
          exact if_pos hd
        rw [List.foldl_cons, hstep,
          foldl_filterStep_eq getDec rest (acc ++ [cur]) cur (List.getLast?_concat acc)]
        simp only [claimKeepGo]
        rw [if_pos hd]
        simp
      · have hstep : filterStep getDec acc cur = acc := by
          unfold filterStep
          rw [h]
          exact if_neg hd
        rw [List.foldl_cons, hstep, foldl_filterStep_eq getDec rest acc l h]
        simp only [claimKeepGo]
        rw [if_neg hd]

theorem filterPointsByDistance_eq_claimFilter {α : Type} (getDec : α → Option GeoPoint)
    (points : List α) :
    filterPointsByDistance getDec points = claimFilter calculateDistance getDec points := by
  match points with
  | [] => rfl
  | p :: rest =>
      show rest.foldl (filterStep getDec) [p] = p :: claimKeepGo calculateDistance getDec p rest
      rw [foldl_filterStep_eq getDec rest [p] p rfl]
      rfl

theorem distLE_calculateDistance_decNZ {g1 g2 : Option GeoPoint} {t : ℝ}
    (h : distLE (calculateDistance g1 g2) t) : decNZ g1 ∧ decNZ g2 := by
  match g1, g2 with
  | none, _ => exact absurd h (by simp [calculateDistance, distLE])
  | some p1, none => exact absurd h (by simp [calculateDistance, distLE])
  | some p1, some p2 =>
      match h1 : p1.lat, h2 : p1.lon, h3 : p2.lat, h4 : p2.lon with
      | some la1, some lo1, some la2, some lo2 =>
          by_cases hz : la1 = 0 ∨ lo1 = 0 ∨ la2 = 0 ∨ lo2 = 0
          · exact absurd h (by simp [calculateDistance, h1, h2, h3, h4, if_pos hz, distLE])
          · push_neg at hz
            exact ⟨⟨p1, la1, lo1, rfl, h1, h2, hz.1, hz.2.1⟩,
              ⟨p2, la2, lo2, rfl, h3, h4, hz.2.2.1, hz.2.2.2⟩⟩
      | none, _, _, _ => exact absurd h (by simp [calculateDistance, h1, distLE])
      | some _, none, _, _ => exact absurd h (by simp [calculateDistance, h1, h2, distLE])
      | some _, some _, none, _ =>
          exact absurd h (by simp [calculateDistance, h1, h2, h3, distLE])
      | some _, some _, some _, none =>
          exact absurd h (by simp [calculateDistance, h1, h2, h3, h4, distLE])

theorem foldl_filterStep_invariant {α : Type} (getDec : α → Option GeoPoint) :
    ∀ (rest acc : List α), acc ≠ [] →
      List.Chain' (filterKeepRel getDec) acc →
      (∀ x ∈ acc.drop 1, decNZ (getDec x)) →
      List.Chain' (filterKeepRel getDec) (rest.foldl (filterStep getDec) acc) ∧
        (∀ x ∈ (rest.foldl (filterStep getDec) acc).drop 1, decNZ (getDec x))
  | [], acc, _, hchain, hdec => ⟨hchain, hdec⟩
  | cur :: rest, acc, hne, hchain, hdec => by
      obtain ⟨l, hl⟩ : ∃ l, acc.getLast? = some l := by
        match hx : acc.getLast? with
        | some l => exact ⟨l, rfl⟩
        | none => exact absurd (List.getLast?_eq_none_iff.mp hx) hne
      by_cases hd : distLE (calculateDistance (getDec l) (getDec cur)) MAX_DISTANCE
      · have hstep : filterStep getDec acc cur = acc ++ [cur] := by
          unfold filterStep
          rw [hl]
          exact if_pos hd
        rw [List.foldl_cons, hstep]
        refine foldl_filterStep_invariant getDec rest (acc ++ [cur]) (by simp) ?_ ?_
        · rw [List.chain'_append]
          refine ⟨hchain, List.chain'_singleton cur, ?_⟩
          intro x hx y hy
          rw [hl] at hx
          simp at hx hy
          rw [← hx, ← hy]
          exact hd
        · intro x hx
          rw [List.drop_append_of_le_length (by
            have := List.length_pos.mpr hne
            omega)] at hx
          rcases List.mem_append.mp hx with hx | hx
          · exact hdec x hx
          · have hxc : x = cur := by simpa using hx
            rw [hxc]
            exact (distLE_calculateDistance_decNZ hd).2
      · have hstep : filterStep getDec acc cur = acc := by
          unfold filterStep
          rw [hl]
          exact if_neg hd
        rw [List.foldl_cons, hstep]
        exact foldl_filterStep_invariant getDec rest acc hne hchain hdec

/-! ## Claim theorems -/

theorem decryptData_key_congr (sod : SodiumModel) (enc : String) {P1 P2 : List Byte}
    (h : deriveKey P1 = deriveKey P2) :
    decryptData sod enc P1 = decryptData sod enc P2 := by
  unfold decryptData
  rw [h]

/-- C8: a live arrival prepends the new point to its device's window and
truncates it to at most 5 entries; after 6 sequential live arrivals starting
from an empty window, the window holds exactly the 5 most recent points,
newest first. -/
theorem C8_window_cap {α : Type} (devicePoints : String → List α) (d : String)
    (p p1 p2 p3 p4 p5 p6 : α) :
    handleNewPoint devicePoints d p d = (p :: devicePoints d).take 5 ∧
    (List.foldl (fun dp q => handleNewPoint dp d q) (fun _ => [])
        [p1, p2, p3, p4, p5, p6]) d = [p6, p5, p4, p3, p2] := by
  constructor
  · unfold handleNewPoint
    rw [if_pos rfl]
    by_cases h : (p :: devicePoints d).length > 5
    · rw [if_pos h]
    · rw [if_neg h]
      exact (List.take_of_length_le (by omega)).symm
  · simp [handleNewPoint]

/-- C7 counterexample: the date-range bulk-fetch query string orders
descending by the timestamp field but contains no `LIMIT` clause at all, so
not every bulk-fetch query includes a result-size cap. -/
theorem C7_counterexample :
    strHasSub (queryEncryptedOwnTracksDataByDateRange_query "owntracks" "content" "timestamp")
        "ORDER BY `timestamp` DESC" = true ∧
    strHasSub (queryEncryptedOwnTracksDataByDateRange_query "owntracks" "content" "timestamp")
        "LIMIT" = false := by decide

/-- C7 (amended): every bulk-fetch query string orders descending by the
timestamp field; the by-device and combined-filter queries cap results at
1000 rows and the per-device last-points query carries a bound `LIMIT $limit`
parameter, but the recent-window query and the date-range query contain no
result-size cap. -/
theorem C7_amended :
    (strHasSub (queryEncryptedOwnTracksData_query "owntracks" "content" "timestamp")
        "ORDER BY `timestamp` DESC" = true ∧
      strHasSub (queryEncryptedOwnTracksData_query "owntracks" "content" "timestamp")
        "LIMIT" = false) ∧
    (strHasSub
        (queryEncryptedOwnTracksDataByDevice_query "owntracks" "content" "device" "timestamp")
        "ORDER BY `timestamp` DESC" = true ∧
      strHasSub
        (queryEncryptedOwnTracksDataByDevice_query "owntracks" "content" "device" "timestamp")
        "LIMIT 1000" = true) ∧
    (strHasSub (queryEncryptedOwnTracksDataByDateRange_query "owntracks" "content" "timestamp")
        "ORDER BY `timestamp` DESC" = true ∧
      strHasSub (queryEncryptedOwnTracksDataByDateRange_query "owntracks" "content" "timestamp")
        "LIMIT" = false) ∧
    (∀ hasDeviceId hasDateRange : Bool,
      strHasSub
          (queryEncryptedOwnTracksDataWithFilters_query "owntracks" "content" "device"
            "timestamp" hasDeviceId hasDateRange)
          "ORDER BY `timestamp` DESC" = true ∧
        strHasSub
          (queryEncryptedOwnTracksDataWithFilters_query "owntracks" "content" "device"
            "timestamp" hasDeviceId hasDateRange)
          "LIMIT 1000" = true) ∧
    (strHasSub (getLastPointsForDevice_query "owntracks" "content" "device" "timestamp")
        "ORDER BY `timestamp` DESC" = true ∧
      strHasSub (getLastPointsForDevice_query "owntracks" "content" "device" "timestamp")
        "LIMIT $limit" = true) := by decide

/-- C10: `saveCredentials` replaces the in-memory credential set before
encrypting; when encryption/serialization fails it returns `false` and
records an error, while the in-memory credential set already equals the new
credentials and the persisted blob (and `isLoaded`) keep their previous
values. -/
theorem C10_save_not_atomic (stringify : Credentials → List Byte)
    (enc : List Byte → List Byte → Option String) (st : CredentialsState)
    (c : Credentials) (M : List Byte) (hfail : enc (stringify c) M = none) :
    saveCredentials stringify enc st c M =
      ({ st with credentials := c, error := some "Failed to save credentials" }, false) := by
  unfold saveCredentials
  rw [hfail]

/-- Witness for C10 at a concrete state, credential set and failing cipher. -/
theorem C10_witness :
    saveCredentials tinyStringify (fun _ _ => none) initialCredentialsState credExample [97] =
      ({ initialCredentialsState with
          credentials := credExample
          error := some "Failed to save credentials" }, false) :=
  C10_save_not_atomic tinyStringify (fun _ _ => none) initialCredentialsState credExample [97] rfl

/-- C6: the code has no cancellation.  On the trace "refresh, refresh while
the first run's continuation is pending, first continuation fires", the
abandoned first run's `setTimeout` callback still processes record 6 and
writes its outcome, while the specified behaviour (continuations of a
superseded refresh generation are discarded) writes nothing for record 6. -/
theorem C6_stale_write :
    (pipelineRun (fun _ => true) pipelineInit staleWriteTrace).results 6 = some true ∧
    (specPipelineRun (fun _ => true) specPipelineInit staleWriteTrace).results 6 = none := by
  constructor <;> rfl

/-- C9: the OwnTracks decryptor never throws: when the (extracted) token is
not valid base64 the result is a failure with a decode error, and when the
decoded payload is shorter than the nonce width the result is a failure
indicating the data is too short. -/
theorem C9_decrypt_failures {J : Type} (sod : SodiumModel)
    (envParse : String → Option EncryptedEnvelope) (jsonParse : List Byte → Option J)
    (input : String) (secretKey : List Byte) :
    (base64decode (extractBase64Data envParse input) = none →
      decryptOwnTracksData sod envParse jsonParse input secretKey = .failed .decodeFailed) ∧
    (∀ b, base64decode (extractBase64Data envParse input) = some b →
      b.length < crypto_secretbox_NONCEBYTES →
      decryptOwnTracksData sod envParse jsonParse input secretKey = .failed .tooShort) := by
  constructor
  · intro h
    unfold decryptOwnTracksData
    rw [h]
  · intro b hb hlen
    unfold decryptOwnTracksData
    rw [hb]
    exact if_pos hlen

/-- Witness for C9: `decrypt("not-base64!!", ...)` yields the decode
failure, and the 3-byte payload `"AAAA"` yields the too-short failure. -/
theorem C9_witness :
    decryptOwnTracksData toySodium (fun _ => none) (fun _ => (none : Option Unit))
        "not-base64!!" [] = .failed .decodeFailed ∧
    decryptOwnTracksData toySodium (fun _ => none) (fun _ => (none : Option Unit))
        "AAAA" [] = .failed .tooShort :=
  ⟨(C9_decrypt_failures toySodium (fun _ => none) (fun _ => (none : Option Unit))
      "not-base64!!" []).1 (by decide),
    (C9_decrypt_failures toySodium (fun _ => none) (fun _ => (none : Option Unit))
      "AAAA" []).2 [0, 0, 0] (by decide) (by decide)⟩

theorem loadCredentials_of_bind_some (parse : List Byte → Option Credentials)
    (dec : String → List Byte → Option (List Byte)) (st : CredentialsState) (M : List Byte)
    (c : Credentials) (hne : ¬ st.encryptedData = "")
    (h : (dec st.encryptedData M).bind parse = some c) :
    loadCredentials parse dec st M =
      ({ st with credentials := c, isLoaded := true, error := none }, true) := by
  unfold loadCredentials
  rw [if_neg hne, h]

theorem loadCredentials_of_bind_none (parse : List Byte → Option Credentials)
    (dec : String → List Byte → Option (List Byte)) (st : CredentialsState) (M : List Byte)
    (hne : ¬ st.encryptedData = "")
    (h : (dec st.encryptedData M).bind parse = none) :
    loadCredentials parse dec st M =
      ({ st with
          error := some "Failed to decrypt credentials. Incorrect password?"
          isLoaded := false }, false) := by
  unfold loadCredentials
  rw [if_neg hne, h]

/-- C2: saving a credential set under a master password and loading with the
same master password succeeds and restores a credential set deep-equal to the
one saved (under the secretbox contract and a round-tripping JSON codec). -/
theorem C2_vault_roundtrip (sod : SodiumModel) (hs : SodiumSpec sod)
    (stringify : Credentials → List Byte) (parse : List Byte → Option Credentials)
    (hjson : ∀ cr, parse (stringify cr) = some cr)
    (st : CredentialsState) (c : Credentials) (M : List Byte) :
    (saveCredentials stringify (sodEnc sod) st c M).2 = true ∧
    (loadCredentials parse (sodDec sod)
        (saveCredentials stringify (sodEnc sod) st c M).1 M).2 = true ∧
    (loadCredentials parse (sodDec sod)
        (saveCredentials stringify (sodEnc sod) st c M).1 M).1.credentials = c ∧
    (loadCredentials parse (sodDec sod)
        (saveCredentials stringify (sodEnc sod) st c M).1 M).1.isLoaded = true := by
  have hne : encryptData sod (stringify c) M ≠ "" := encryptData_ne_empty sod hs _ _
  have hdec : (decryptData sod (encryptData sod (stringify c) M) M).bind parse = some c := by
    rw [decryptData_encryptData sod hs]
    exact hjson c
  have hload := loadCredentials_of_bind_some parse (sodDec sod)
    (saveCredentials stringify (sodEnc sod) st c M).1 M c (by exact hne) (by exact hdec)
  rw [hload]
  exact ⟨rfl, rfl, rfl, rfl⟩

/-- Witness for C2 at the concrete secretbox, codec, initial state,
credential set and master password. -/
theorem C2_witness :
    (saveCredentials tinyStringify (sodEnc toySodium) initialCredentialsState credExample
        [97, 98]).2 = true ∧
    (loadCredentials tinyParse (sodDec toySodium)
        (saveCredentials tinyStringify (sodEnc toySodium) initialCredentialsState credExample
          [97, 98]).1 [97, 98]).2 = true ∧
    (loadCredentials tinyParse (sodDec toySodium)
        (saveCredentials tinyStringify (sodEnc toySodium) initialCredentialsState credExample
          [97, 98]).1 [97, 98]).1.credentials = credExample ∧
    (loadCredentials tinyParse (sodDec toySodium)
        (saveCredentials tinyStringify (sodEnc toySodium) initialCredentialsState credExample
          [97, 98]).1 [97, 98]).1.isLoaded = true :=
  C2_vault_roundtrip toySodium toySodium_spec tinyStringify tinyParse tinyParse_tinyStringify
    initialCredentialsState credExample [97, 98]

/-- C3 counterexample: two distinct passwords whose first 32 bytes agree
(32 and 33 repetitions of the byte `97`) derive the same key, so decrypting
under the second password what was encrypted under the first *succeeds* and
returns the plaintext, and loading the vault with the second password after
saving under the first succeeds too — the claim's "for every pair of
distinct passwords" fails on the code. -/
theorem C3_counterexample :
    List.replicate 32 (97 : Byte) ≠ List.replicate 33 (97 : Byte) ∧
    deriveKey (List.replicate 32 (97 : Byte)) = deriveKey (List.replicate 33 (97 : Byte)) ∧
    decryptData toySodium (encryptData toySodium [120] (List.replicate 32 (97 : Byte)))
        (List.replicate 33 (97 : Byte)) = some [120] ∧
    (loadCredentials tinyParse (sodDec toySodium)
        (saveCredentials tinyStringify (sodEnc toySodium) initialCredentialsState credExample
          (List.replicate 32 (97 : Byte))).1 (List.replicate 33 (97 : Byte))).2 = true := by
  have hkey : deriveKey (List.replicate 33 (97 : Byte)) =
      deriveKey (List.replicate 32 (97 : Byte)) := by decide
  have hne : encryptData toySodium (tinyStringify credExample) (List.replicate 32 (97 : Byte))
      ≠ "" := encryptData_ne_empty toySodium toySodium_spec _ _
  have hdec3 : ∀ data : List Byte,
      decryptData toySodium (encryptData toySodium data (List.replicate 32 (97 : Byte)))
        (List.replicate 33 (97 : Byte)) = some data := by
    intro data
    rw [decryptData_key_congr toySodium _ hkey]
    exact decryptData_encryptData toySodium toySodium_spec data _
  have hbind : (decryptData toySodium
        (encryptData toySodium (tinyStringify credExample) (List.replicate 32 (97 : Byte)))
        (List.replicate 33 (97 : Byte))).bind tinyParse = some credExample := by
    rw [hdec3]
    exact tinyParse_tinyStringify credExample
  have hload := loadCredentials_of_bind_some tinyParse (sodDec toySodium)
    (saveCredentials tinyStringify (sodEnc toySodium) initialCredentialsState credExample
      (List.replicate 32 (97 : Byte))).1 (List.replicate 33 (97 : Byte)) credExample
    (by exact hne) (by exact hbind)
  refine ⟨by decide, hkey.symm, hdec3 [120], ?_⟩
  rw [hload]

/-- C3 (amended): decryption under a different password fails whenever the
two passwords derive different keys, i.e. whenever their zero-padded 32-byte
truncations differ (truncation-colliding passwords are accepted);
correspondingly, after a save, loading with a master password whose derived
key differs fails. -/
theorem C3_wrong_password (sod : SodiumModel) (hs : SodiumSpec sod)
    (T P1 P2 : List Byte) (hk : deriveKey P1 ≠ deriveKey P2)
    (stringify : Credentials → List Byte) (parse : List Byte → Option Credentials)
    (st : CredentialsState) (c : Credentials) :
    decryptData sod (encryptData sod T P1) P2 = none ∧
    (loadCredentials parse (sodDec sod)
        (saveCredentials stringify (sodEnc sod) st c P1).1 P2).2 = false := by
  refine ⟨decryptData_encryptData_wrong_key sod hs T P1 P2 hk, ?_⟩
  have hne : encryptData sod (stringify c) P1 ≠ "" := encryptData_ne_empty sod hs _ _
  have hdec : (decryptData sod (encryptData sod (stringify c) P1) P2).bind parse = none := by
    rw [decryptData_encryptData_wrong_key sod hs _ _ _ hk]
    rfl
  have hload := loadCredentials_of_bind_none parse (sodDec sod)
    (saveCredentials stringify (sodEnc sod) st c P1).1 P2 (by exact hne) (by exact hdec)
  rw [hload]

/-- Witness for the amended C3 at concrete passwords deriving different
keys. -/
theorem C3_witness :
    decryptData toySodium (encryptData toySodium [120] [97]) [98] = none ∧
    (loadCredentials tinyParse (sodDec toySodium)
        (saveCredentials tinyStringify (sodEnc toySodium) initialCredentialsState credExample
          [97]).1 [98]).2 = false :=
  C3_wrong_password toySodium toySodium_spec [120] [97] [98] (by decide) tinyStringify tinyParse
    initialCredentialsState credExample

/-- C5 counterexample: save with one master password, then a failed unlock
with a different one: the vault is locked (`isLoaded = false`) yet the
in-memory credential set still holds the previously saved, non-blank
credentials — the locked vault is stale-populated, not blanked. -/
theorem C5_counterexample :
    (loadCredentials tinyParse (sodDec toySodium)
        (saveCredentials tinyStringify (sodEnc toySodium) initialCredentialsState credExample
          [97]).1 [98]).1.isLoaded = false ∧
    (loadCredentials tinyParse (sodDec toySodium)
        (saveCredentials tinyStringify (sodEnc toySodium) initialCredentialsState credExample
          [97]).1 [98]).1.credentials = credExample ∧
    credExample ≠ blankCredentials := by
  have hne : encryptData toySodium (tinyStringify credExample) [97] ≠ "" :=
    encryptData_ne_empty toySodium toySodium_spec _ _
  have hdec : (decryptData toySodium
        (encryptData toySodium (tinyStringify credExample) [97]) [98]).bind tinyParse
      = none := by
    rw [decryptData_encryptData_wrong_key toySodium toySodium_spec _ _ _ (by decide)]
    rfl
  have hload := loadCredentials_of_bind_none tinyParse (sodDec toySodium)
    (saveCredentials tinyStringify (sodEnc toySodium) initialCredentialsState credExample
      [97]).1 [98] (by exact hne) (by exact hdec)
  rw [hload]
  exact ⟨rfl, rfl, by decide⟩

/-- C5 (amended): a failed unlock leaves the previous in-memory credential
set untouched (so a locked vault can be stale-populated); the credential set
is blanked, with the vault locked, by `clearCredentials`. -/
theorem C5_locked_state (parse : List Byte → Option Credentials)
    (dec : String → List Byte → Option (List Byte)) (st : CredentialsState) (M : List Byte) :
    ((loadCredentials parse dec st M).2 = false →
      (loadCredentials parse dec st M).1.credentials = st.credentials) ∧
    (clearCredentials st).credentials = blankCredentials ∧
    (clearCredentials st).isLoaded = false := by
  refine ⟨?_, rfl, rfl⟩
  intro h
  by_cases he : st.encryptedData = ""
  · simp [loadCredentials, he]
  · cases hm : (dec st.encryptedData M).bind parse with
    | none => simp [loadCredentials, he, hm]
    | some d =>
        exfalso
        simp [loadCredentials, he, hm] at h

/-- Witness for the amended C5: a concrete failed unlock preserves the
stored credential set, and clearing blanks it. -/
theorem C5_witness :
    (loadCredentials tinyParse (fun _ _ => none)
        ⟨"blob", credExample, true, none⟩ [1]).1.credentials = credExample ∧
    (clearCredentials ⟨"blob", credExample, true, none⟩).credentials = blankCredentials :=
  ⟨(C5_locked_state tinyParse (fun _ _ => none) ⟨"blob", credExample, true, none⟩ [1]).1
      (by decide),
    (C5_locked_state tinyParse (fun _ _ => none) ⟨"blob", credExample, true, none⟩ [1]).2.1⟩

/-- C1 counterexample: both records of the window `[0, 1]` decrypt to the
same equator point (latitude 0, longitude 5).  The claim's reading (haversine
distance between decrypted coordinates, distance 0 ≤ 150 m) keeps both
points, but the code treats the zero latitude as a falsy/missing coordinate,
makes the distance infinite and drops the second point. -/
theorem C1_counterexample :
    claimFilter claimDistance decEquator [0, 1] = [0, 1] ∧
    filterPointsByDistance decEquator [0, 1] = [0] := by
  have hcd : claimDistance (decEquator 0) (decEquator 1) = some 0 := by
    show some (haversineDistance 0 5 0 5) = some 0
    rw [haversineDistance_self]
  have hd : distLE (claimDistance (decEquator 0) (decEquator 1)) MAX_DISTANCE := by
    rw [hcd]
    show (0 : ℝ) ≤ MAX_DISTANCE
    norm_num [MAX_DISTANCE]
  have hcode : calculateDistance (decEquator 0) (decEquator 1) = none := by
    show (if (0 : ℚ) = 0 ∨ (5 : ℚ) = 0 ∨ (0 : ℚ) = 0 ∨ (5 : ℚ) = 0 then (none : Option ℝ)
        else some (haversineDistance 0 5 0 5)) = none
    exact if_pos (Or.inl rfl)
  have hnot : ¬ distLE (calculateDistance (decEquator 0) (decEquator 1)) MAX_DISTANCE := by
    rw [hcode]
    exact fun hf => hf
  constructor
  · have hkeep : claimKeepGo claimDistance decEquator 0 [1] = [1] := by
      unfold claimKeepGo
      rw [if_pos hd]
      rfl
    show (0 : ℕ) :: claimKeepGo claimDistance decEquator 0 [1] = [0, 1]
    rw [hkeep]
  · have hstep : filterStep decEquator [0] 1 = [0] := by
      unfold filterStep
      exact if_neg (fun hf => hnot hf)
    show List.foldl (filterStep decEquator) [0] [1] = [0]
    rw [List.foldl_cons, hstep, List.foldl_nil]

/-- C1 (amended): the filter keeps the newest point unconditionally and
keeps each subsequent point exactly when the code's effective distance to
the last kept point is within 150 m, where the effective distance is the
haversine distance between the decrypted coordinates except that a point
with no decrypted data, a missing coordinate, or a *zero* latitude or
longitude (JavaScript truthiness) — on either side of the comparison —
counts as infinitely far and is dropped; in particular the window
`[p2, p1, p0]` with coordinates (0, 5), (0, 0.001), (0, 0) filters to
`[p2]`. -/
theorem C1_filter_semantics :
    (∀ (α : Type) (getDec : α → Option GeoPoint) (points : List α),
        filterPointsByDistance getDec points = claimFilter calculateDistance getDec points) ∧
    filterPointsByDistance decC1Example [2, 1, 0] = [2] := by
  refine ⟨fun α getDec points => filterPointsByDistance_eq_claimFilter getDec points, ?_⟩
  have hc1 : calculateDistance (decC1Example 2) (decC1Example 1) = none := by
    show (if (0 : ℚ) = 0 ∨ (5 : ℚ) = 0 ∨ (0 : ℚ) = 0 ∨ (1 / 1000 : ℚ) = 0 then (none : Option ℝ)
        else some (haversineDistance 0 5 0 (1 / 1000))) = none
    exact if_pos (Or.inl rfl)
  have hc0 : calculateDistance (decC1Example 2) (decC1Example 0) = none := by
    show (if (0 : ℚ) = 0 ∨ (5 : ℚ) = 0 ∨ (0 : ℚ) = 0 ∨ (0 : ℚ) = 0 then (none : Option ℝ)
        else some (haversineDistance 0 5 0 0)) = none
    exact if_pos (Or.inl rfl)
  have hnot1 : ¬ distLE (calculateDistance (decC1Example 2) (decC1Example 1)) MAX_DISTANCE := by
    rw [hc1]
    exact fun hf => hf
  have hnot0 : ¬ distLE (calculateDistance (decC1Example 2) (decC1Example 0)) MAX_DISTANCE := by
    rw [hc0]
    exact fun hf => hf
  have hstep1 : filterStep decC1Example [2] 1 = [2] := by
    unfold filterStep
    exact if_neg (fun hf => hnot1 hf)
  have hstep0 : filterStep decC1Example [2] 0 = [2] := by
    unfold filterStep
    exact if_neg (fun hf => hnot0 hf)
  show List.foldl (filterStep decC1Example) [2] [1, 0] = [2]
  rw [List.foldl_cons, hstep1, List.foldl_cons, hstep0, List.foldl_nil]

/-- C4 counterexample: both records of the window `[0, 1]` decrypt to the
same point (1, 1); the filter keeps both, and the two consecutive kept
points are at haversine distance 0, which is *less* than the 150 m
threshold — consecutive kept points are not "at least the threshold
apart". -/
theorem C4_counterexample :
    filterPointsByDistance decSame [0, 1] = [0, 1] ∧
    haversineDistance 1 1 1 1 = 0 ∧ (0 : ℝ) < MAX_DISTANCE := by
  have hcd : calculateDistance (decSame 0) (decSame 1) =
      some (haversineDistance 1 1 1 1) := by
    show (if (1 : ℚ) = 0 ∨ (1 : ℚ) = 0 ∨ (1 : ℚ) = 0 ∨ (1 : ℚ) = 0 then (none : Option ℝ)
        else some (haversineDistance 1 1 1 1)) = some (haversineDistance 1 1 1 1)
    exact if_neg (by norm_num)
  rw [haversineDistance_self] at hcd
  have hd : distLE (calculateDistance (decSame 0) (decSame 1)) MAX_DISTANCE := by
    rw [hcd]
    show (0 : ℝ) ≤ MAX_DISTANCE
    norm_num [MAX_DISTANCE]
  have hstep : filterStep decSame [0] 1 = [0, 1] := by
    unfold filterStep
    exact if_pos hd
  refine ⟨?_, haversineDistance_self 1 1, by norm_num [MAX_DISTANCE]⟩
  show List.foldl (filterStep decSame) [0] [1] = [0, 1]
  rw [List.foldl_cons, hstep, List.foldl_nil]

/-- C4 (amended): every pair of consecutive points kept by the filter is
within (at most) the 150 m threshold under the code's effective distance,
and every kept point other than the unconditionally kept newest one carries
a successful decryption with both coordinates present and nonzero. -/
theorem C4_filtered_path_invariant (α : Type) (getDec : α → Option GeoPoint)
    (points : List α) :
    List.Chain' (filterKeepRel getDec) (filterPointsByDistance getDec points) ∧
    ∀ x ∈ (filterPointsByDistance getDec points).drop 1, decNZ (getDec x) := by
  match points with
  | [] =>
      refine ⟨List.chain'_nil, ?_⟩
      intro x hx
      simp [filterPointsByDistance] at hx
  | p :: rest =>
      have h := foldl_filterStep_invariant getDec rest [p] (by simp)
        (List.chain'_singleton p) (by intro x hx; simp at hx)
      exact h
